import Mathlib

/-!
Verification of the `isd-lite-data` acquisition-and-consolidation engine.

This file shallowly embeds the functions of `src/isd_lite_data/ncei.py` and
`src/isd_lite_data/stations.py` that the specification talks about, and proves
(or refutes) the specified properties about the embedding.

Modelling conventions:
* the local filesystem is an association list from path strings to file
  contents (`FS`); `Path` values are plain strings joined with `/`;
* the remote server is a map from URLs to a `RemoteResource` describing what a
  HEAD request returns (the `ETag` header, if any) and what a streaming GET
  does (full body, HTTP error before any write, or an interruption after part
  of the body has been written);
* Python exceptions become explicit error results (`Except` / error
  constructors);
* numeric observation values are rationals (`ℚ`), the `NaN` missing marker is
  `Option.none`, and machine floats' `0.1 * x` is the exact `x / 10`;
* thread pools are modelled by sequentially folding the per-item work over the
  item list: each item owns its own destination path end-to-end, every item is
  attempted, and per-item exceptions are caught and recorded.
-/

namespace IsdLite

/-! ## Filesystem model -/

/-- A filesystem: an association list from path to file contents.
`read` returns the first binding for a path; `write` replaces any previous
binding (creating or overwriting the file, as Python `open(path, 'wb'/'w')`
does). -/
abbrev FS := List (String × String)

/-- Contents of the file at `p`, if it exists. -/
def FS.read (fs : FS) (p : String) : Option String := fs.lookup p

/-- Create or overwrite the file at `p` with contents `v`. -/
def FS.write (fs : FS) (p : String) (v : String) : FS :=
  (p, v) :: fs.filter (fun e => !(e.1 == p))

/-- Python `Path.exists()`. -/
def FS.fileExists (fs : FS) (p : String) : Bool := (fs.lookup p).isSome

theorem FS.read_write_self (fs : FS) (p v : String) :
    (fs.write p v).read p = some v := by
  simp [FS.write, FS.read, List.lookup]

theorem FS.lookup_filter_ne (fs : FS) (p q : String) (h : q ≠ p) :
    (fs.filter (fun e => !(e.1 == p))).lookup q = fs.lookup q := by
  induction fs with
  | nil => rfl
  | cons e t ih =>
    rcases e with ⟨a, b⟩
    by_cases he : a = p
    · subst he
      have hq : (q == a) = false := by simp [h]
      simp [List.filter_cons, List.lookup, hq, ih]
    · have hne : (!(a == p)) = true := by simp [he]
      by_cases hqa : q = a
      · subst hqa
        simp [List.filter_cons, hne, List.lookup]
      · have hq : (q == a) = false := by simp [hqa]
        simp [List.filter_cons, hne, List.lookup, hq, ih]

theorem FS.read_write_ne (fs : FS) (p q v : String) (h : q ≠ p) :
    (fs.write p v).read q = fs.read q := by
  have hq : (q == p) = false := by simp [h]
  simp [FS.write, FS.read, List.lookup, hq, FS.lookup_filter_ne fs p q h]

/-! ## `ncei.download_file`: the conditional-fetch cache -/

/-- What a streaming `requests.get` of the resource does. -/
inductive GetResult
  /-- Success: the full body is streamed and written. -/
  | ok (body : String)
  /-- Non-success HTTP status: `raise_for_status` raises before the local
  file is opened, so nothing is written. -/
  | httpError
  /-- The transfer is interrupted mid-stream: the local file has been opened
  for writing (truncating it) and only `part` was written before the
  exception propagates. -/
  | interrupted (part : String)
deriving DecidableEq

/-- A remote resource as seen by `download_file`: the `ETag` header that a
HEAD request returns (if any), and what a streaming GET does. -/
structure RemoteResource where
  etag : Option String
  body : GetResult
deriving DecidableEq

/-- Outcome of one `download_file` call. Python exceptions are the
`fetchError` constructor. -/
inductive FetchResult
  | skipped
  | downloaded
  | fetchError (msg : String)
deriving DecidableEq

/-- Result state of one `download_file` call: the outcome, the filesystem
afterwards, and whether a body transfer (streaming GET) was issued. -/
structure FetchStep where
  result : FetchResult
  fs : FS
  transferred : Bool
deriving DecidableEq

/-- The sidecar tag file path: `local_file_path.with_name(name + '.etag')`. -/
def etagPath (p : String) : String := p ++ ".etag"

/-- Python `str.strip()` (with no argument): remove leading and trailing
whitespace. -/
def pyStrip (s : String) : String :=
  ⟨(((s.data.dropWhile Char.isWhitespace).reverse.dropWhile Char.isWhitespace).reverse)⟩

/-- Model of `ncei.download_file(url, local_file_path, refresh)`.

Mirrors the source: HEAD for the `ETag` (raise if absent); if `refresh` is
false and both the payload and its `.etag` sidecar exist, read the sidecar,
strip it, and compare with the remote tag — equal means skip (no GET); in
every other case stream the body to the payload path and only afterwards
write the remote tag to the sidecar. -/
def download_file (res : RemoteResource) (localFilePath : String) (refresh : Bool)
    (fs : FS) : FetchStep :=
  match res.etag with
  | none => ⟨.fetchError "ETag not found", fs, false⟩
  | some etag =>
    if !refresh && fs.fileExists localFilePath && fs.fileExists (etagPath localFilePath)
        && (pyStrip ((fs.read (etagPath localFilePath)).getD "") == etag) then
      ⟨.skipped, fs, false⟩
    else
      match res.body with
      | .ok body =>
        ⟨.downloaded, (fs.write localFilePath body).write (etagPath localFilePath) etag, true⟩
      | .httpError => ⟨.fetchError "TransferFailed", fs, true⟩
      | .interrupted part =>
        ⟨.fetchError "TransferFailed", fs.write localFilePath part, true⟩

theorem etagPath_ne (p : String) : etagPath p ≠ p := by
  intro h
  have h5 : (".etag" : String).length = 5 := rfl
  have hl := congrArg String.length h
  rw [etagPath, String.length_append, h5] at hl
  omega

/-- Claim C1 (amended): with `refresh` (force) false, when both the payload and
its sidecar exist and the stored tag — as the code reads it, i.e. the sidecar
contents stripped of surrounding whitespace — equals the remote tag, the call
performs zero body transfers and leaves the filesystem untouched; when the
stored tag differs from the remote tag a body transfer occurs; with `refresh`
true a body transfer always occurs; and, provided the remote tag carries no
surrounding whitespace (is fixed by `strip`), calling twice in a row from a
state with no sidecar yields one transfer followed by one skip that leaves the
filesystem unchanged. -/
theorem download_file_conditional_fetch
    (res : RemoteResource) (p : String) (fs : FS) (etag : String)
    (he : res.etag = some etag) :
    (fs.fileExists p = true → fs.fileExists (etagPath p) = true →
      pyStrip ((fs.read (etagPath p)).getD "") = etag →
      download_file res p false fs = ⟨.skipped, fs, false⟩)
    ∧ (pyStrip ((fs.read (etagPath p)).getD "") ≠ etag →
      (download_file res p false fs).transferred = true)
    ∧ ((download_file res p true fs).transferred = true)
    ∧ (∀ body, res.body = .ok body → pyStrip etag = etag →
      fs.fileExists (etagPath p) = false →
      (download_file res p false fs).transferred = true ∧
      download_file res p false (download_file res p false fs).fs
        = ⟨.skipped, (download_file res p false fs).fs, false⟩) := by
  refine ⟨?_, ?_, ?_, ?_⟩
  · intro h1 h2 h3
    simp [download_file, he, h1, h2, h3]
  · intro h3
    have hbeq : (pyStrip ((fs.read (etagPath p)).getD "") == etag) = false := by
      simp [h3]
    cases hb : res.body <;> simp [download_file, he, hbeq, hb]
  · cases hb : res.body <;> simp [download_file, he, hb]
  · intro body hbody hstrip hep
    have hfirst : download_file res p false fs
        = ⟨.downloaded, (fs.write p body).write (etagPath p) etag, true⟩ := by
      simp [download_file, he, hbody, hep]
    refine ⟨by rw [hfirst], ?_⟩
    rw [hfirst]
    have hpay : ((fs.write p body).write (etagPath p) etag).read p = some body := by
      rw [FS.read_write_ne _ _ _ _ (fun hh => etagPath_ne p hh.symm)]
      exact FS.read_write_self fs p body
    have hside : ((fs.write p body).write (etagPath p) etag).read (etagPath p)
        = some etag := FS.read_write_self _ _ _
    have hex1 : ((fs.write p body).write (etagPath p) etag).fileExists p = true := by
      have hdef : ((fs.write p body).write (etagPath p) etag).fileExists p
          = (((fs.write p body).write (etagPath p) etag).read p).isSome := rfl
      rw [hdef, hpay]
      rfl
    have hex2 : ((fs.write p body).write (etagPath p) etag).fileExists (etagPath p) = true := by
      have hdef : ((fs.write p body).write (etagPath p) etag).fileExists (etagPath p)
          = (((fs.write p body).write (etagPath p) etag).read (etagPath p)).isSome := rfl
      rw [hdef, hside]
      rfl
    have hbeq : (pyStrip ((((fs.write p body).write (etagPath p) etag).read
        (etagPath p)).getD "") == etag) = true := by
      rw [hside]
      simp [hstrip]
    simp [download_file, he, hex1, hex2, hbeq]

/-- Claim C1 counterexample: a remote tag that carries surrounding whitespace
(here the tag is the two-character string "space x") refutes the claimed
idempotence. The tag is written to the sidecar verbatim but read back through
`strip()`, so the stored tag never compares equal to the remote tag and the
second call performs a second body transfer instead of skipping. -/
theorem download_file_idempotence_cex :
    ((download_file ⟨some " x", .ok "B"⟩ "f.gz" false []).transferred = true)
    ∧ ((download_file ⟨some " x", .ok "B"⟩ "f.gz" false
          (download_file ⟨some " x", .ok "B"⟩ "f.gz" false []).fs).transferred = true)
    ∧ ((download_file ⟨some " x", .ok "B"⟩ "f.gz" false
          (download_file ⟨some " x", .ok "B"⟩ "f.gz" false []).fs).result
        = .downloaded) := by decide

/-- Claim C1 witness: the conditional-fetch theorem applied at a concrete
remote resource with a whitespace-free tag, starting from an empty
filesystem: the first call transfers, the second skips. -/
theorem download_file_conditional_fetch_witness :
    (download_file ⟨some "abc", .ok "BODY"⟩ "f.gz" false []).transferred = true ∧
    download_file ⟨some "abc", .ok "BODY"⟩ "f.gz" false
        (download_file ⟨some "abc", .ok "BODY"⟩ "f.gz" false []).fs
      = ⟨.skipped, (download_file ⟨some "abc", .ok "BODY"⟩ "f.gz" false []).fs, false⟩ :=
  (download_file_conditional_fetch ⟨some "abc", .ok "BODY"⟩ "f.gz" [] "abc" rfl).2.2.2
    "BODY" rfl (by decide) rfl

/-- Claim C2 (amended): the sidecar tag is written only after the payload
write completes successfully — on a completed download the payload holds the
full body and the sidecar the remote tag; a call that does not complete a
download never creates or changes a sidecar; after a transfer interrupted
before completion with no pre-existing sidecar, no sidecar exists and the
next call without force re-attempts the transfer rather than skipping.
(The stronger "sidecar exists iff payload completely written" biconditional
of the original claim fails when a re-download over an existing cached pair
is interrupted: the stale sidecar survives next to the partial payload; see
the counterexample.) -/
theorem download_file_sidecar (res : RemoteResource) (p : String) (refresh : Bool) (fs : FS) :
    (∀ etag body, res.etag = some etag → res.body = .ok body →
      (download_file res p refresh fs).result = .downloaded →
      (download_file res p refresh fs).fs.read p = some body ∧
      (download_file res p refresh fs).fs.read (etagPath p) = some etag)
    ∧ ((download_file res p refresh fs).result ≠ .downloaded →
      (download_file res p refresh fs).fs.read (etagPath p) = fs.read (etagPath p))
    ∧ (∀ etag part, res.etag = some etag → res.body = .interrupted part →
      fs.read (etagPath p) = none →
      (download_file res p refresh fs).fs.read (etagPath p) = none ∧
      ∀ res' etag', res'.etag = some etag' →
        (download_file res' p false (download_file res p refresh fs).fs).result ≠ .skipped ∧
        (download_file res' p false (download_file res p refresh fs).fs).transferred = true) := by
  refine ⟨?_, ?_, ?_⟩
  · intro etag body he hb hres
    by_cases hskip : (!refresh && fs.fileExists p && fs.fileExists (etagPath p)
        && (pyStrip ((fs.read (etagPath p)).getD "") == etag)) = true
    · rw [download_file, he] at hres
      simp only [hskip] at hres
      simp at hres
    · have hstep : download_file res p refresh fs
          = ⟨.downloaded, (fs.write p body).write (etagPath p) etag, true⟩ := by
        rw [download_file, he]
        simp only [Bool.not_eq_true] at hskip
        simp [hskip, hb]
      rw [hstep]
      constructor
      · rw [FS.read_write_ne _ _ _ _ (fun hh => etagPath_ne p hh.symm)]
        exact FS.read_write_self fs p body
      · exact FS.read_write_self _ _ _
  · intro hres
    rcases he : res.etag with _ | etag
    · simp [download_file, he]
    · by_cases hskip : (!refresh && fs.fileExists p && fs.fileExists (etagPath p)
          && (pyStrip ((fs.read (etagPath p)).getD "") == etag)) = true
      · simp [download_file, he, hskip]
      · simp only [Bool.not_eq_true] at hskip
        rcases hb : res.body with body | _ | part
        · exfalso
          apply hres
          simp [download_file, he, hskip, hb]
        · simp [download_file, he, hskip, hb]
        · simp [download_file, he, hskip, hb,
            FS.read_write_ne fs p (etagPath p) part (etagPath_ne p)]
  · intro etag part he hb hnoside
    have hnoex : fs.fileExists (etagPath p) = false := by
      have hdef : fs.fileExists (etagPath p) = (fs.read (etagPath p)).isSome := rfl
      rw [hdef, hnoside]
      rfl
    have hstep : download_file res p refresh fs
        = ⟨.fetchError "TransferFailed", fs.write p part, true⟩ := by
      simp [download_file, he, hb, hnoex]
    have hafter : (fs.write p part).read (etagPath p) = none := by
      rw [FS.read_write_ne fs p (etagPath p) part (etagPath_ne p)]
      exact hnoside
    refine ⟨by rw [hstep]; exact hafter, ?_⟩
    intro res' etag' he'
    have hnoex' : (fs.write p part).fileExists (etagPath p) = false := by
      have hdef : (fs.write p part).fileExists (etagPath p)
          = ((fs.write p part).read (etagPath p)).isSome := rfl
      rw [hdef, hafter]
      rfl
    rw [hstep]
    cases hb' : res'.body <;>
      simp [download_file, he', hb', hnoex']

/-! ## `ncei.ISDLite_data_file_name`: the resource key -/

/-- Decimal digit characters of `n`, most significant first. The first
argument is structural-recursion fuel; `fuel = n` always suffices because
`n / 10 < n` for positive `n`. -/
def decimalAux : Nat → Nat → List Char
  | 0, _ => []
  | _ + 1, 0 => []
  | fuel + 1, n + 1 => decimalAux fuel ((n + 1) / 10) ++ [Nat.digitChar ((n + 1) % 10)]

/-- Python `str(n)` for a natural number, as a character list. -/
def strOfNat (n : Nat) : List Char :=
  if n = 0 then ['0'] else decimalAux n n

/-- Numeric value of a least-significant-first digit-character list; the
left inverse used to show decimal rendering is injective. -/
def lsbVal : List Char → Nat
  | [] => 0
  | c :: l => (c.toNat - 48) + 10 * lsbVal l

theorem digitChar_toNat (d : Nat) (h : d < 10) : (Nat.digitChar d).toNat = 48 + d := by
  interval_cases d <;> rfl

theorem lsbVal_reverse_decimalAux (fuel : Nat) :
    ∀ n, n ≤ fuel → lsbVal (decimalAux fuel n).reverse = n := by
  induction fuel with
  | zero => intro n hn; interval_cases n; rfl
  | succ fuel ih =>
    intro n hn
    match n with
    | 0 => rfl
    | m + 1 =>
      rw [decimalAux, List.reverse_append, List.reverse_singleton, List.singleton_append,
        lsbVal, digitChar_toNat _ (Nat.mod_lt _ (by omega)),
        ih ((m + 1) / 10) (by omega)]
      omega

theorem strOfNat_injective : Function.Injective strOfNat := by
  have key : ∀ n, lsbVal (strOfNat n).reverse = n := by
    intro n
    match n with
    | 0 => rfl
    | m + 1 =>
      rw [strOfNat, if_neg (by omega)]
      exact lsbVal_reverse_decimalAux (m + 1) (m + 1) le_rfl
  intro a b hab
  rw [← key a, ← key b, hab]

/-- The `.gz` extension appended by the source. -/
def gzSuffix : List Char := ['.', 'g', 'z']

/-- Model of `ncei.ISDLite_data_file_name(year, usaf_id, wban_id)`:
the string `usaf_id + '-' + wban_id + '-' + str(year) + '.gz'` as a
character list. -/
def fileNameChars (year : Nat) (usaf wban : List Char) : List Char :=
  usaf ++ '-' :: (wban ++ '-' :: (strOfNat year ++ gzSuffix))

/-- The `String` form of `ncei.ISDLite_data_file_name`, used to build local paths. -/
def ISDLite_data_file_name (year : Nat) (usaf wban : String) : String :=
  ⟨fileNameChars year usaf.data wban.data⟩

/-- The module-level ISD Lite base URL (`ncei.isd_lite_url`); it has no
trailing slash, so the source's `rstrip('/')` leaves it unchanged. -/
def isd_lite_url : String := "https://www.ncei.noaa.gov/pub/data/noaa/isd-lite"

/-- Model of `ncei.isdlite_data_url(year, usaf_id, wban_id)`. -/
def isdlite_data_url (year : Nat) (usaf wban : String) : String :=
  isd_lite_url ++ "/" ++ (⟨strOfNat year⟩ : String) ++ "/" ++ ISDLite_data_file_name year usaf wban

/-- Claim C5 (amended): the file-name mapping is a pure total function whose
value is exactly the USAF code, the WBAN code and the decimal year joined by
dashes with the `.gz` extension, and it is injective on fixed-format codes:
no two distinct (year, usaf, wban) triples in which the USAF codes have equal
length and the WBAN codes have equal length produce the same file name. (For
codes of unconstrained shape the mapping is not injective — a dash inside a
code shifts the separators; see the counterexample.) -/
theorem ISDLite_data_file_name_resource_key
    (y1 y2 : Nat) (u1 u2 w1 w2 : List Char)
    (hu : u1.length = u2.length) (hw : w1.length = w2.length) :
    (fileNameChars y1 u1 w1 = u1 ++ '-' :: (w1 ++ '-' :: (strOfNat y1 ++ gzSuffix)))
    ∧ (fileNameChars y1 u1 w1 = fileNameChars y2 u2 w2 →
        y1 = y2 ∧ u1 = u2 ∧ w1 = w2) := by
  refine ⟨rfl, ?_⟩
  intro h
  rw [fileNameChars, fileNameChars] at h
  obtain ⟨hu12, h⟩ := List.append_inj h hu
  rw [List.cons_eq_cons] at h
  obtain ⟨hw12, h⟩ := List.append_inj h.2 hw
  rw [List.cons_eq_cons] at h
  have hy : strOfNat y1 = strOfNat y2 := by
    have := h.2
    rwa [List.append_left_inj] at this
  exact ⟨strOfNat_injective hy, hu12, hw12⟩

/-- Claim C5 counterexample: with a dash inside the USAF code, the two
distinct triples (1, "A-B", "C") and (1, "A", "B-C") map to the same file
name "A-B-C-1.gz", so the mapping is not injective over arbitrary code
strings. -/
theorem ISDLite_data_file_name_collision_cex :
    fileNameChars 1 "A-B".data "C".data = fileNameChars 1 "A".data "B-C".data
    ∧ ((1, "A-B".data, "C".data) ≠ ((1 : Nat), "A".data, "B-C".data)) := by decide

/-- Claim C5 witness: the resource-key theorem applied at concrete
fixed-format codes. -/
theorem ISDLite_data_file_name_resource_key_witness :
    (fileNameChars 1 "010230".data "99999".data
      = "010230".data ++ '-' :: ("99999".data ++ '-' :: (strOfNat 1 ++ gzSuffix)))
    ∧ (fileNameChars 1 "010230".data "99999".data
        = fileNameChars 1 "010230".data "99999".data →
        (1 : Nat) = 1 ∧ "010230".data = "010230".data ∧ "99999".data = "99999".data) :=
  ISDLite_data_file_name_resource_key 1 1 "010230".data "010230".data
    "99999".data "99999".data rfl rfl

/-- Claim C2 counterexample: starting from an empty filesystem, a successful
fetch caches payload and sidecar; a subsequent fetch of the changed resource
is interrupted mid-stream. The call errors out, yet the old sidecar is still
present while the payload now holds only the partial body — a sidecar without
a matching completely-written payload. -/
theorem download_file_sidecar_cex :
    (download_file ⟨some "b", .interrupted "PA"⟩ "f.gz" false
        (download_file ⟨some "a", .ok "FULLBODY"⟩ "f.gz" false []).fs).result
      = .fetchError "TransferFailed"
    ∧ (download_file ⟨some "b", .interrupted "PA"⟩ "f.gz" false
        (download_file ⟨some "a", .ok "FULLBODY"⟩ "f.gz" false []).fs).fs.read
          (etagPath "f.gz") = some "a"
    ∧ (download_file ⟨some "b", .interrupted "PA"⟩ "f.gz" false
        (download_file ⟨some "a", .ok "FULLBODY"⟩ "f.gz" false []).fs).fs.read "f.gz"
      = some "PA" := by decide

/-- Claim C2 witness: the sidecar theorem applied at a concrete interrupted
transfer starting with no sidecar: no sidecar is created and the next call
re-attempts the transfer. -/
theorem download_file_sidecar_witness :
    (download_file ⟨some "a", .interrupted "PA"⟩ "f.gz" false []).fs.read
        (etagPath "f.gz") = none ∧
    (download_file ⟨some "b", .ok "B"⟩ "f.gz" false
        (download_file ⟨some "a", .interrupted "PA"⟩ "f.gz" false []).fs).result
      ≠ .skipped ∧
    (download_file ⟨some "b", .ok "B"⟩ "f.gz" false
        (download_file ⟨some "a", .interrupted "PA"⟩ "f.gz" false []).fs).transferred
      = true := by
  have h := (download_file_sidecar ⟨some "a", .interrupted "PA"⟩ "f.gz" false []).2.2
    "a" "PA" rfl rfl rfl
  exact ⟨h.1, (h.2 ⟨some "b", .ok "B"⟩ "b" rfl).1, (h.2 ⟨some "b", .ok "B"⟩ "b" rfl).2⟩

/-! ## `stations.Stations.read_station_observations`: the observation decoder -/

/-- The eight observation variables (`Stations.var_names`), in the order of
file columns 4..11. -/
inductive ObsVar
  | T | TD | SLP | WD | WS | SKY | PREC1H | PREC6H
deriving DecidableEq

/-- The 0-based file column of each observation variable (columns 0..3 are
the four time components). -/
def ObsVar.col : ObsVar → Nat
  | .T => 4
  | .TD => 5
  | .SLP => 6
  | .WD => 7
  | .WS => 8
  | .SKY => 9
  | .PREC1H => 10
  | .PREC6H => 11

/-- The precipitation columns, `range(10, 12)` in the source. -/
def precCols : List Nat := [10, 11]

/-- The columns the source multiplies by 0.1: `cols = [4, 5, 6, 8, 10, 11]`. -/
def scaledCols : List Nat := [4, 5, 6, 8, 10, 11]

/-- Decoding of one raw integer field by `read_station_observations`: a value
equal to `missing_value` becomes NaN at parse time (`na_values`); then a raw
-1 in a precipitation column becomes 0 (trace); then the scaled columns are
multiplied by 0.1. NaN is `none`; numbers are exact rationals. -/
def decodeCol (missing : Int) (j : Nat) (raw : Int) : Option ℚ :=
  if raw = missing then none
  else
    let v : ℚ := if j ∈ precCols ∧ raw = -1 then 0 else (raw : ℚ)
    if j ∈ scaledCols then some ((1 / 10) * v) else some v

/-- Decoding of one raw field of a named observation variable. -/
def decodeVar (missing : Int) (x : ObsVar) (raw : Int) : Option ℚ :=
  decodeCol missing x.col raw

/-- Claim C4: with the default missing sentinel -9999, a raw -1 in either
precipitation field decodes to exactly 0; a raw value equal to the sentinel
decodes to the absent marker in any field; every other raw value of a scaled
field (temperature, dew point, pressure, wind speed, both precipitations)
decodes to raw / 10; wind direction and sky condition are left unscaled. -/
theorem read_station_observations_field_rules (x : ObsVar) (raw : Int) :
    ((x = .PREC1H ∨ x = .PREC6H) → decodeVar (-9999) x (-1) = some 0)
    ∧ (decodeVar (-9999) x (-9999) = none)
    ∧ (raw ≠ -9999 →
        (x = .T ∨ x = .TD ∨ x = .SLP ∨ x = .WS ∨ x = .PREC1H ∨ x = .PREC6H) →
        ¬((x = .PREC1H ∨ x = .PREC6H) ∧ raw = -1) →
        decodeVar (-9999) x raw = some ((raw : ℚ) / 10))
    ∧ ((x = .WD ∨ x = .SKY) → raw ≠ -9999 → decodeVar (-9999) x raw = some (raw : ℚ)) := by
  refine ⟨?_, ?_, ?_, ?_⟩
  · rintro (rfl | rfl) <;> norm_num [decodeVar, decodeCol, ObsVar.col, precCols, scaledCols]
  · cases x <;> norm_num [decodeVar, decodeCol, ObsVar.col, precCols, scaledCols]
  · intro hraw hs hnot
    have hdiv : (1 / 10 : ℚ) * (raw : ℚ) = (raw : ℚ) / 10 := by ring
    rcases hs with rfl | rfl | rfl | rfl | rfl | rfl <;>
      simp only [decodeVar, decodeCol, ObsVar.col, precCols, scaledCols] <;>
      rw [if_neg hraw]
    · norm_num [hdiv]
    · norm_num [hdiv]
    · norm_num [hdiv]
    · norm_num [hdiv]
    · have h1 : raw ≠ -1 := fun hh => hnot ⟨Or.inl rfl, hh⟩
      norm_num [h1, hdiv]
    · have h1 : raw ≠ -1 := fun hh => hnot ⟨Or.inr rfl, hh⟩
      norm_num [h1, hdiv]
  · rintro (rfl | rfl) hraw <;>
      simp only [decodeVar, decodeCol, ObsVar.col, precCols, scaledCols] <;>
      rw [if_neg hraw] <;>
      norm_num

/-- Claim C4 witness: the field rules evaluated at concrete raw values — a
trace precipitation, a missing temperature, a scaled temperature, and an
unscaled wind direction. -/
theorem read_station_observations_field_rules_witness :
    decodeVar (-9999) .PREC1H (-1) = some 0
    ∧ decodeVar (-9999) .T (-9999) = none
    ∧ decodeVar (-9999) .T 123 = some (((123 : Int) : ℚ) / 10)
    ∧ decodeVar (-9999) .WD 270 = some ((270 : Int) : ℚ) := by
  refine ⟨(read_station_observations_field_rules .PREC1H (-1)).1 (Or.inl rfl),
    (read_station_observations_field_rules .T (-9999)).2.1,
    (read_station_observations_field_rules .T 123).2.2.1 (by decide) (Or.inl rfl) ?_,
    (read_station_observations_field_rules .WD 270).2.2.2 (Or.inl rfl) (by decide)⟩
  rintro ⟨h | h, _⟩ <;> exact ObsVar.noConfusion h

/-! ## `stations.Stations.load_observations`: the consolidation engine

A station's record sequence is a list of (timestamp, value) pairs (the
time-indexed dataframe returned by `read_station_observations`, restricted to
one observation variable); timestamps are naturals. The value type is
abstract: a cell of the consolidated array is `Option α`, with `none` the
NaN marker written by `np.full(..., np.nan)` wherever `reindex` finds no
record. -/

/-- The timestamps of one station's record sequence (`df.index`). -/
def stationTimes {α : Type} (df : List (Nat × α)) : List Nat := df.map Prod.fst

/-- The shared time axis: the union of every station's timestamps, distinct
and sorted ascending (`pd.Index.union` folded over the stations, then
`sort_values`). -/
def allTimes {α : Type} (dfs : List (List (Nat × α))) : List Nat :=
  List.insertionSort (· ≤ ·) ((dfs.map stationTimes).flatten.dedup)

/-- The consolidated per-variable array of `load_observations`: one row per
shared timestamp, one column per station in caller order; each cell is the
station's own reading at that timestamp (`s.reindex(all_times)`), or `none`. -/
def load_observations_field {α : Type} (dfs : List (List (Nat × α))) :
    List (List (Option α)) :=
  (allTimes dfs).map fun t => dfs.map fun df => df.lookup t

theorem getD_map_of_lt {α β : Type} (f : α → β) (l : List α) (i : Nat)
    (h : i < l.length) (d : α) (d' : β) : (l.map f).getD i d' = f (l.getD i d) := by
  induction l generalizing i with
  | nil => simp at h
  | cons a t ih =>
    cases i with
    | zero => rfl
    | succ n => exact ih n (by simpa using h)

theorem lookup_eq_none_iff {α : Type} (df : List (Nat × α)) (t : Nat) :
    df.lookup t = none ↔ t ∉ stationTimes df := by
  induction df with
  | nil => simp [stationTimes]
  | cons e tl ih =>
    rcases e with ⟨k, v⟩
    by_cases hk : t = k
    · subst hk
      simp [List.lookup, stationTimes]
    · have hb : (t == k) = false := by simp [hk]
      simp only [List.lookup, hb, stationTimes, List.map_cons, List.mem_cons]
      rw [ih]
      simp [stationTimes, hk]

theorem mem_of_lookup_eq_some {α : Type} (df : List (Nat × α)) (t : Nat) (v : α)
    (h : df.lookup t = some v) : (t, v) ∈ df := by
  induction df with
  | nil => simp [List.lookup] at h
  | cons e tl ih =>
    rcases e with ⟨k, w⟩
    by_cases hk : t = k
    · subst hk
      simp only [List.lookup, beq_self_eq_true, Option.some.injEq] at h
      simp [h]
    · have hb : (t == k) = false := by simp [hk]
      simp only [List.lookup, hb] at h
      exact List.mem_cons_of_mem _ (ih h)

theorem lookup_eq_some_of_mem {α : Type} (df : List (Nat × α))
    (hnd : (stationTimes df).Nodup) (t : Nat) (v : α) (h : (t, v) ∈ df) :
    df.lookup t = some v := by
  induction df with
  | nil => simp at h
  | cons e tl ih =>
    rcases e with ⟨k, w⟩
    simp only [stationTimes, List.map_cons, List.nodup_cons] at hnd
    rcases List.mem_cons.mp h with heq | hmem
    · rw [Prod.mk.injEq] at heq
      rw [heq.1, heq.2]
      simp [List.lookup]
    · by_cases hk : t = k
      · exfalso
        apply hnd.1
        subst hk
        exact List.mem_map.mpr ⟨(t, v), hmem, rfl⟩
      · have hb : (t == k) = false := by simp [hk]
        simp only [List.lookup, hb]
        exact ih hnd.2 hmem

/-- Claim C3: for a non-empty collection of per-station record sequences
(each with distinct timestamps, as a time-indexed series has),
`load_observations` builds the shared time axis as the sorted list of all
distinct timestamps appearing in any station's sequence; the per-variable
array has one row per union timestamp and one column per station with
stations in caller order; a cell is the absent marker `none` exactly when the
station has no record at that timestamp, and otherwise it is exactly that
station's own recorded value. -/
theorem load_observations_consolidation {α : Type} (dfs : List (List (Nat × α)))
    (hne : dfs ≠ []) (hnd : ∀ df ∈ dfs, (stationTimes df).Nodup) :
    List.Sorted (· < ·) (allTimes dfs)
    ∧ (∀ t, t ∈ allTimes dfs ↔ ∃ df ∈ dfs, t ∈ stationTimes df)
    ∧ (load_observations_field dfs).length = (allTimes dfs).length
    ∧ (∀ row ∈ load_observations_field dfs, row.length = dfs.length)
    ∧ (∀ i j, i < (allTimes dfs).length → j < dfs.length →
        ((load_observations_field dfs).getD i []).getD j none
          = (dfs.getD j []).lookup ((allTimes dfs).getD i 0))
    ∧ (∀ t j, j < dfs.length →
        (((dfs.getD j []).lookup t = none ↔ t ∉ stationTimes (dfs.getD j []))
        ∧ (∀ v, (dfs.getD j []).lookup t = some v → (t, v) ∈ dfs.getD j [])
        ∧ (∀ v, (t, v) ∈ dfs.getD j [] → (dfs.getD j []).lookup t = some v))) := by
  have hperm := List.perm_insertionSort (· ≤ ·) ((dfs.map stationTimes).flatten.dedup)
  refine ⟨?_, ?_, ?_, ?_, ?_, ?_⟩
  · have hsle : List.Sorted (· ≤ ·) (allTimes dfs) :=
      List.sorted_insertionSort (· ≤ ·) _
    have hnodup : (allTimes dfs).Nodup :=
      hperm.nodup_iff.mpr (List.nodup_dedup _)
    exact (hsle.and hnodup).imp fun hab => lt_of_le_of_ne hab.1 hab.2
  · intro t
    rw [allTimes, hperm.mem_iff, List.mem_dedup, List.mem_flatten]
    constructor
    · rintro ⟨l, hl, htl⟩
      rcases List.mem_map.mp hl with ⟨df, hdf, rfl⟩
      exact ⟨df, hdf, htl⟩
    · rintro ⟨df, hdf, htl⟩
      exact ⟨stationTimes df, List.mem_map.mpr ⟨df, hdf, rfl⟩, htl⟩
  · simp [load_observations_field]
  · intro row hrow
    rcases List.mem_map.mp hrow with ⟨t, _, rfl⟩
    simp
  · intro i j hi hj
    rw [load_observations_field, getD_map_of_lt _ _ i hi 0 []]
    exact getD_map_of_lt _ _ j hj [] none
  · intro t j hj
    refine ⟨lookup_eq_none_iff _ t, fun v => mem_of_lookup_eq_some _ t v,
      fun v => lookup_eq_some_of_mem _ (hnd _ ?_) t v⟩
    rw [List.getD_eq_getElem _ _ hj]
    exact List.getElem_mem hj

/-- A concrete two-station input for the consolidation witness: station 0
reports at times 1 and 3, station 1 at times 2 and 3. -/
def c3dfs : List (List (Nat × Nat)) := [[(1, 10), (3, 30)], [(2, 20), (3, 31)]]

/-- Claim C3 witness: the consolidation theorem applied to the concrete
two-station input with partially overlapping timestamp sets. -/
theorem load_observations_consolidation_witness :
    List.Sorted (· < ·) (allTimes c3dfs)
    ∧ (∀ t, t ∈ allTimes c3dfs ↔ ∃ df ∈ c3dfs, t ∈ stationTimes df)
    ∧ (load_observations_field c3dfs).length = (allTimes c3dfs).length
    ∧ (∀ row ∈ load_observations_field c3dfs, row.length = c3dfs.length)
    ∧ (∀ i j, i < (allTimes c3dfs).length → j < c3dfs.length →
        ((load_observations_field c3dfs).getD i []).getD j none
          = (c3dfs.getD j []).lookup ((allTimes c3dfs).getD i 0))
    ∧ (∀ t j, j < c3dfs.length →
        (((c3dfs.getD j []).lookup t = none ↔ t ∉ stationTimes (c3dfs.getD j []))
        ∧ (∀ v, (c3dfs.getD j []).lookup t = some v → (t, v) ∈ c3dfs.getD j [])
        ∧ (∀ v, (t, v) ∈ c3dfs.getD j [] → (c3dfs.getD j []).lookup t = some v))) :=
  load_observations_consolidation c3dfs (by decide) (by decide)

/-! ## `ncei.download_threaded`: the batch scheduler -/

/-- The per-item work of the batch: each (url, path) pair is submitted to
`download_file`; the worker owns its pair end-to-end, and an exception raised
by one item (`future.result()` inside `try`) is caught and recorded for that
item without cancelling the others. The bounded pool is modelled by running
the items in order: the `k`-th entry of the returned list is the outcome of
the `k`-th item. -/
def runItems (remote : String → RemoteResource) (refresh : Bool) :
    List (String × String) → FS → List FetchResult × FS
  | [], fs => ([], fs)
  | item :: rest, fs =>
    let step := download_file (remote item.1) item.2 refresh fs
    let out := runItems remote refresh rest step.fs
    (step.result :: out.1, out.2)

/-- Model of `ncei.download_threaded(urls, paths, n_jobs, refresh)`: raises
`ValueError` when the list lengths differ, before any work; otherwise runs
every item. -/
def download_threaded (remote : String → RemoteResource) (urls paths : List String)
    (refresh : Bool) (fs : FS) : Except String (List FetchResult × FS) :=
  if urls.length ≠ paths.length then
    .error "The number of URLs must match the number of local paths."
  else
    .ok (runItems remote refresh (urls.zip paths) fs)

/-- Recognizer of a recorded per-item failure (a caught exception). -/
def isFetchError : FetchResult → Bool
  | .fetchError _ => true
  | _ => false

theorem download_file_ok_not_error (res : RemoteResource) (p : String) (refresh : Bool)
    (fs : FS) (t b : String) (he : res.etag = some t) (hb : res.body = .ok b) :
    isFetchError (download_file res p refresh fs).result = false := by
  simp only [download_file, he]
  split
  · rfl
  · simp only [hb]
    rfl

theorem download_file_no_etag_error (res : RemoteResource) (p : String) (refresh : Bool)
    (fs : FS) (he : res.etag = none) :
    isFetchError (download_file res p refresh fs).result = true := by
  simp [download_file, he, isFetchError]

theorem runItems_counts (remote : String → RemoteResource) (refresh : Bool) :
    ∀ (pairs : List (String × String)) (fs : FS),
    (∀ p ∈ pairs, (remote p.1).etag = none
      ∨ ∃ t b, (remote p.1).etag = some t ∧ (remote p.1).body = .ok b) →
    (runItems remote refresh pairs fs).1.length = pairs.length
    ∧ (runItems remote refresh pairs fs).1.countP isFetchError
        = pairs.countP (fun p => (remote p.1).etag == none) := by
  intro pairs
  induction pairs with
  | nil => intro fs _; exact ⟨rfl, rfl⟩
  | cons item rest ih =>
    intro fs hconf
    have hrest := ih (download_file (remote item.1) item.2 refresh fs).fs
      (fun p hp => hconf p (List.mem_cons_of_mem _ hp))
    constructor
    · simp [runItems, hrest.1]
    · rcases hconf item (List.mem_cons_self _ _) with hn | ⟨t, b, ht, hb⟩
      · have herr := download_file_no_etag_error (remote item.1) item.2 refresh fs hn
        simp [runItems, List.countP_cons, hrest.2, herr, hn]
      · have hok := download_file_ok_not_error (remote item.1) item.2 refresh fs t b ht hb
        simp [runItems, List.countP_cons, hrest.2, hok, ht]

theorem countP_not_add {α : Type} (p : α → Bool) (l : List α) :
    l.countP (fun a => !(p a)) + l.countP p = l.length := by
  induction l with
  | nil => rfl
  | cons a t ih =>
    rw [List.countP_cons, List.countP_cons, List.length_cons]
    cases hp : p a <;> simp [hp] <;> omega

theorem countP_zip_fst (pred : String → Bool) :
    ∀ (urls paths : List String), urls.length = paths.length →
    (urls.zip paths).countP (fun p => pred p.1) = urls.countP pred := by
  intro urls
  induction urls with
  | nil => intro paths _; rfl
  | cons u rest ih =>
    intro paths hlen
    cases paths with
    | nil => simp at hlen
    | cons q qs =>
      simp only [List.zip_cons_cons, List.countP_cons]
      rw [ih qs (by simpa using hlen)]

/-- Claim C6: when every one of the N items is configured either to fail (its
metadata request returns no tag, so its fetch raises) or to succeed (tag
present and body available), the scheduler attempts all N items, records one
outcome per item, reports exactly as many failures as there are failing
items, and N - k successes — one item's exception never aborts the batch. -/
theorem download_threaded_partial_failure (remote : String → RemoteResource)
    (urls paths : List String) (refresh : Bool) (fs : FS)
    (hlen : urls.length = paths.length)
    (hconf : ∀ url ∈ urls, (remote url).etag = none
      ∨ ∃ t b, (remote url).etag = some t ∧ (remote url).body = .ok b) :
    ∃ results fsOut,
      download_threaded remote urls paths refresh fs = .ok (results, fsOut)
      ∧ results.length = urls.length
      ∧ results.countP isFetchError = urls.countP (fun url => (remote url).etag == none)
      ∧ results.countP (fun r => !(isFetchError r))
          = urls.length - urls.countP (fun url => (remote url).etag == none) := by
  have hzip : ∀ p ∈ urls.zip paths, (remote p.1).etag = none
      ∨ ∃ t b, (remote p.1).etag = some t ∧ (remote p.1).body = .ok b := by
    intro p hp
    exact hconf p.1 (List.of_mem_zip hp).1
  have hcounts := runItems_counts remote refresh (urls.zip paths) fs hzip
  have hzl : (urls.zip paths).length = urls.length := by
    rw [List.length_zip, hlen, Nat.min_self]
  have hfst : List.countP (fun p => (remote p.1).etag == none) (urls.zip paths)
      = urls.countP (fun url => (remote url).etag == none) :=
    countP_zip_fst (fun url => (remote url).etag == none) urls paths hlen
  refine ⟨(runItems remote refresh (urls.zip paths) fs).1,
    (runItems remote refresh (urls.zip paths) fs).2, ?_, ?_, ?_, ?_⟩
  · simp [download_threaded, hlen]
  · rw [hcounts.1, hzl]
  · rw [hcounts.2]
    exact hfst
  · have hsplit := countP_not_add isFetchError (runItems remote refresh (urls.zip paths) fs).1
    rw [hcounts.1, hzl, hcounts.2, hfst] at hsplit
    omega

/-- A concrete remote for the batch witness: items `u2` and `u5` are
configured to fail (no tag), the rest succeed. -/
def c6remote : String → RemoteResource := fun url =>
  if url = "u2" ∨ url = "u5" then ⟨none, .ok "B"⟩ else ⟨some "a", .ok "B"⟩

/-- Claim C6 witness: the partial-failure theorem applied to a concrete batch
of five items of which exactly two are configured to fail. -/
theorem download_threaded_partial_failure_witness :
    ∃ results fsOut,
      download_threaded c6remote ["u1", "u2", "u3", "u4", "u5"]
          ["p1", "p2", "p3", "p4", "p5"] false [] = .ok (results, fsOut)
      ∧ results.length = (["u1", "u2", "u3", "u4", "u5"] : List String).length
      ∧ results.countP isFetchError
          = (["u1", "u2", "u3", "u4", "u5"] : List String).countP
              (fun url => (c6remote url).etag == none)
      ∧ results.countP (fun r => !(isFetchError r))
          = (["u1", "u2", "u3", "u4", "u5"] : List String).length
            - (["u1", "u2", "u3", "u4", "u5"] : List String).countP
                (fun url => (c6remote url).etag == none) := by
  apply download_threaded_partial_failure c6remote ["u1", "u2", "u3", "u4", "u5"]
    ["p1", "p2", "p3", "p4", "p5"] false [] rfl
  intro url hu
  simp only [List.mem_cons, List.not_mem_nil, or_false] at hu
  rcases hu with rfl | rfl | rfl | rfl | rfl
  · exact Or.inr ⟨"a", "B", rfl, rfl⟩
  · exact Or.inl rfl
  · exact Or.inr ⟨"a", "B", rfl, rfl⟩
  · exact Or.inr ⟨"a", "B", rfl, rfl⟩
  · exact Or.inl rfl

/-- Claim C8: mismatched list lengths are rejected with `ValueError` before
any work starts: the outcome is the same error whatever the remote server
and whatever the local filesystem hold, so no fetch is attempted and no local
file or sidecar is created or modified. -/
theorem download_threaded_rejects_mismatch (remote : String → RemoteResource)
    (urls paths : List String) (refresh : Bool) (fs : FS)
    (h : urls.length ≠ paths.length) :
    download_threaded remote urls paths refresh fs
      = .error "The number of URLs must match the number of local paths."
    ∧ ∀ (remote' : String → RemoteResource) (fs' : FS),
        download_threaded remote urls paths refresh fs
          = download_threaded remote' urls paths refresh fs' := by
  refine ⟨by simp [download_threaded, h], fun remote' fs' => ?_⟩
  simp [download_threaded, h]

/-- Claim C8 witness: the mismatch theorem applied to one URL and zero
paths. -/
theorem download_threaded_rejects_mismatch_witness :
    download_threaded (fun _ => ⟨some "a", .ok "B"⟩) ["u1"] [] false []
      = .error "The number of URLs must match the number of local paths."
    ∧ ∀ (remote' : String → RemoteResource) (fs' : FS),
        download_threaded (fun _ => ⟨some "a", .ok "B"⟩) ["u1"] [] false []
          = download_threaded remote' ["u1"] [] false fs' :=
  download_threaded_rejects_mismatch (fun _ => ⟨some "a", .ok "B"⟩) ["u1"] [] false []
    (by decide)

/-! ## `ncei.download_many`: the year-range batch driver -/

/-- The local file path `local_dir / ISDLite_data_file_name(year, usaf, wban)`. -/
def localPathOf (localDir : String) (year : Nat) (id : String × String) : String :=
  localDir ++ "/" ++ ISDLite_data_file_name year id.1 id.2

/-- The year loop of `download_many`: for each year, build per-station URLs
and local paths, run the batch scheduler on them, and append the local paths
to the accumulator. A `ValueError` from the scheduler would propagate. -/
def download_many_loop (ids : List (String × String)) (localDir : String)
    (refresh : Bool) (remote : String → RemoteResource) :
    List Nat → List String → FS → Except String (List String × FS)
  | [], acc, fs => .ok (acc, fs)
  | year :: rest, acc, fs =>
    match download_threaded remote (ids.map fun id => isdlite_data_url year id.1 id.2)
        (ids.map fun id => localPathOf localDir year id) refresh fs with
    | .ok (_, fsNew) =>
      download_many_loop ids localDir refresh remote rest
        (acc ++ ids.map fun id => localPathOf localDir year id) fsNew
    | .error e => .error e

/-- Model of `ncei.download_many(start_year, end_year, ids, local_dir, ...)`:
the inclusive year range `range(start_year, end_year + 1)` driven through the
batch scheduler, returning the accumulated local paths. -/
def download_many (startYear endYear : Nat) (ids : List (String × String))
    (localDir : String) (refresh : Bool) (remote : String → RemoteResource)
    (fs : FS) : Except String (List String × FS) :=
  download_many_loop ids localDir refresh remote
    (List.range' startYear (endYear + 1 - startYear)) [] fs

theorem length_flatMap_const {α β : Type} (l : List α) (f : α → List β) (n : Nat)
    (h : ∀ a ∈ l, (f a).length = n) : (l.flatMap f).length = l.length * n := by
  induction l with
  | nil => simp
  | cons a t ih =>
    rw [List.flatMap_cons, List.length_append, h a (List.mem_cons_self _ _),
      ih (fun b hb => h b (List.mem_cons_of_mem _ hb)), List.length_cons,
      Nat.succ_mul, Nat.add_comm]

theorem download_many_loop_paths (ids : List (String × String)) (localDir : String)
    (refresh : Bool) (remote : String → RemoteResource) :
    ∀ (years : List Nat) (acc : List String) (fs : FS),
    ∃ fsOut, download_many_loop ids localDir refresh remote years acc fs
      = .ok (acc ++ years.flatMap (fun year => ids.map fun id => localPathOf localDir year id),
          fsOut) := by
  intro years
  induction years with
  | nil =>
    intro acc fs
    exact ⟨fs, by simp [download_many_loop]⟩
  | cons year rest ih =>
    intro acc fs
    obtain ⟨rs, rfs, hre⟩ : ∃ rs rfs, runItems remote refresh
        ((ids.map fun id => isdlite_data_url year id.1 id.2).zip
          (ids.map fun id => localPathOf localDir year id)) fs = (rs, rfs) := ⟨_, _, rfl⟩
    have hok : download_threaded remote (ids.map fun id => isdlite_data_url year id.1 id.2)
        (ids.map fun id => localPathOf localDir year id) refresh fs
        = .ok (rs, rfs) := by
      rw [← hre]
      simp [download_threaded]
    have hstep : download_many_loop ids localDir refresh remote (year :: rest) acc fs
        = download_many_loop ids localDir refresh remote rest
            (acc ++ ids.map fun id => localPathOf localDir year id) rfs := by
      simp only [download_many_loop, hok]
    obtain ⟨fsOut, hrest⟩ := ih (acc ++ ids.map fun id => localPathOf localDir year id) rfs
    refine ⟨fsOut, ?_⟩
    rw [hstep, hrest, List.flatMap_cons, List.append_assoc]

/-- Claim C9: for `start_year <= end_year`, `download_many` returns the list
of exactly `(end_year - start_year + 1) * (number of ids)` local paths,
year-major with stations in input order within each year, where the entry for
(year, (usaf, wban)) is `local_dir/usaf-wban-year.gz`; the returned path list
is the same whatever the remote server or the local filesystem hold, i.e.
regardless of which downloads succeed. -/
theorem download_many_returns_paths (startYear endYear : Nat)
    (ids : List (String × String)) (localDir : String) (refresh : Bool)
    (remote : String → RemoteResource) (fs : FS) (h : startYear ≤ endYear) :
    (∃ fsOut, download_many startYear endYear ids localDir refresh remote fs
      = .ok ((List.range' startYear (endYear + 1 - startYear)).flatMap
          (fun year => ids.map fun id => localPathOf localDir year id), fsOut))
    ∧ ((List.range' startYear (endYear + 1 - startYear)).flatMap
          (fun year => ids.map fun id => localPathOf localDir year id)).length
        = (endYear - startYear + 1) * ids.length := by
  constructor
  · obtain ⟨fsOut, hloop⟩ := download_many_loop_paths ids localDir refresh remote
      (List.range' startYear (endYear + 1 - startYear)) [] fs
    exact ⟨fsOut, by rw [download_many, hloop, List.nil_append]⟩
  · rw [length_flatMap_const _ _ ids.length (fun year _ => by simp), List.length_range']
    have : endYear + 1 - startYear = endYear - startYear + 1 := by omega
    rw [this]

/-- Claim C9 witness: `download_many` over years 1..2 and two stations, with
a remote that has no resources at all (every download fails), still returns
the full 2 x 2 path list. -/
theorem download_many_returns_paths_witness :
    (∃ fsOut, download_many 1 2 [("010230", "99999"), ("A", "B")] "d" false
        (fun _ => ⟨none, .httpError⟩) []
      = .ok ((List.range' 1 (2 + 1 - 1)).flatMap
          (fun year => [("010230", "99999"), ("A", "B")].map
            fun id => localPathOf "d" year id), fsOut))
    ∧ ((List.range' 1 (2 + 1 - 1)).flatMap
          (fun year => [("010230", "99999"), ("A", "B")].map
            fun id => localPathOf "d" year id)).length
        = (2 - 1 + 1) * ([("010230", "99999"), ("A", "B")] : List (String × String)).length :=
  download_many_returns_paths 1 2 [("010230", "99999"), ("A", "B")] "d" false
    (fun _ => ⟨none, .httpError⟩) [] (by decide)

/-! ## `ncei.isdlite_data_urls`: the bulk availability listing -/

/-- A year directory request: either a transport error
(`requests.RequestException`) or a response carrying the HTTP status, whether
the Content-Type contains `text/html`, and the anchor `href` targets parsed
from the body. The `href`s of a listing are taken relative to the year
directory; `urljoin(year_dir, href)` is modelled as concatenation, under
which the source's same-scheme, same-host and year-path-prefix constraints
hold by construction. -/
inductive YearFetch
  | transportError
  | response (status : Nat) (isHtml : Bool) (hrefs : List String)

/-- The year directory URL `{base}/{year}/`. -/
def year_dir_url (year : Nat) : String :=
  isd_lite_url ++ "/" ++ (⟨strOfNat year⟩ : String) ++ "/"

/-- The absolute file URLs one year contributes: none at all on a transport
error, a non-success status (>= 400) or a non-HTML content type; otherwise
the `href` targets without parent/root links and without directory links
(ending in '/'), made absolute against the year directory. -/
def yearFiles (year : Nat) (r : YearFetch) : List String :=
  match r with
  | .transportError => []
  | .response status isHtml hrefs =>
    if 400 ≤ status ∨ isHtml = false then []
    else (hrefs.filter fun h => (h != "../") && (h != "/") && !(h.endsWith "/")).map
      fun h => year_dir_url year ++ h

/-- Model of `ncei.isdlite_data_urls(start_year, end_year)`: raises
`ValueError` on an inverted range; otherwise gathers every year's contributed
file URLs into a set and returns them sorted. -/
def isdlite_data_urls (startYear endYear : Nat) (server : Nat → YearFetch) :
    Except String (List String) :=
  if endYear < startYear then
    .error "end_year must be greater than or equal to start_year."
  else
    .ok (List.insertionSort (· ≤ ·)
      (((List.range' startYear (endYear + 1 - startYear)).flatMap
        (fun year => yearFiles year (server year))).dedup))

theorem flatMap_congr {α β : Type} (l : List α) (f g : α → List β)
    (h : ∀ a ∈ l, f a = g a) : l.flatMap f = l.flatMap g := by
  induction l with
  | nil => rfl
  | cons a t ih =>
    rw [List.flatMap_cons, List.flatMap_cons, h a (List.mem_cons_self _ _),
      ih (fun b hb => h b (List.mem_cons_of_mem _ hb))]

/-- Claim C7: a year whose directory request suffers a transport error, or
returns a non-success status (>= 400), or a non-HTML content type,
contributes zero listed files: the bulk listing still returns normally, and
its result is identical to the run in which that year's request simply
errors out — only the other years contribute. -/
theorem isdlite_data_urls_degrades (startYear endYear y : Nat)
    (server : Nat → YearFetch) (h : startYear ≤ endYear)
    (hbad : server y = .transportError
      ∨ ∃ status isHtml hrefs, server y = .response status isHtml hrefs
          ∧ (400 ≤ status ∨ isHtml = false)) :
    (∃ urls, isdlite_data_urls startYear endYear server = .ok urls)
    ∧ isdlite_data_urls startYear endYear server
        = isdlite_data_urls startYear endYear
            (fun yy => if yy = y then .transportError else server yy) := by
  have hnl : ¬endYear < startYear := by omega
  have hzero : yearFiles y (server y) = [] := by
    rcases hbad with hb | ⟨status, isHtml, hrefs, hb, hcond⟩
    · rw [hb]
      rfl
    · rw [hb, yearFiles, if_pos hcond]
  constructor
  · exact ⟨_, by rw [isdlite_data_urls, if_neg hnl]⟩
  · rw [isdlite_data_urls, isdlite_data_urls, if_neg hnl, if_neg hnl]
    have hsame : (List.range' startYear (endYear + 1 - startYear)).flatMap
        (fun year => yearFiles year (server year))
        = (List.range' startYear (endYear + 1 - startYear)).flatMap
          (fun year => yearFiles year (if year = y then .transportError else server year)) := by
      apply flatMap_congr
      intro year _
      by_cases hy : year = y
      · subst hy
        rw [if_pos rfl, hzero]
        rfl
      · rw [if_neg hy]
    rw [hsame]

/-- A concrete server for the listing witness: year 2 answers 404, the other
years answer a good HTML listing with one file link each. -/
def c7server : Nat → YearFetch := fun yy =>
  if yy = 2 then .response 404 true ["x.gz"] else .response 200 true ["a.gz"]

/-- Claim C7 witness: the degradation theorem applied over years 1..3 with
year 2 answering a 404. -/
theorem isdlite_data_urls_degrades_witness :
    (∃ urls, isdlite_data_urls 1 3 c7server = .ok urls)
    ∧ isdlite_data_urls 1 3 c7server
        = isdlite_data_urls 1 3 (fun yy => if yy = 2 then .transportError else c7server yy) :=
  isdlite_data_urls_degrades 1 3 2 c7server (by decide)
    (Or.inr ⟨404, true, ["x.gz"], by simp [c7server], Or.inl (by decide)⟩)

/-! ## `stations.Stations` metadata filters

The filters read a handful of columns of the metadata dataframe; a row is
modelled with those columns. String columns may hold pandas `NA` (`none`);
`LAT`/`LON` are numeric after `_clean_meta_data` dropped the NaN rows;
`BEGIN`/`END` may be `NaT` (`none`), and any comparison with `NaT` is false,
as in pandas. A `Stations` instance owns a dataframe; since
`Stations.__init__` deep-copies (`meta_data.copy(deep=True)`), instances are
modelled as references into a store of dataframes, and the constructor as a
fresh allocation. -/

/-- One station metadata row (the columns the filters read). -/
structure StationRow where
  USAF : String
  WBAN : String
  STATION_NAME : Option String
  CTRY : Option String
  ST : Option String
  LAT : ℚ
  LON : ℚ
  BEGIN : Option Int
  END : Option Int
deriving DecidableEq

/-- The store of dataframes; a `Stations` instance is an index into it. -/
structure Store where
  frames : List (List StationRow)
deriving DecidableEq

/-- Allocate a fresh dataframe cell (the deep copy done by
`Stations.__init__`): the new store and the fresh reference. -/
def Store.alloc (s : Store) (df : List StationRow) : Store × Nat :=
  (⟨s.frames ++ [df]⟩, s.frames.length)

/-- Row predicate of `filter_by_country`: `meta_data["CTRY"].isin(countries)`;
a pandas `NA` is in no list. -/
def ctryIsIn (countries : List String) (row : StationRow) : Bool :=
  match row.CTRY with
  | some c => countries.contains c
  | none => false

/-- Row predicate of `filter_by_us_state`: `meta_data["ST"].isin(us_states)`. -/
def stIsIn (usStates : List String) (row : StationRow) : Bool :=
  match row.ST with
  | some st => usStates.contains st
  | none => false

/-- Row predicate of `filter_by_coordinates`: inside the inclusive
latitude/longitude box. -/
def coordInBox (minLat maxLat minLon maxLon : ℚ) (row : StationRow) : Bool :=
  decide (minLat ≤ row.LAT) && decide (row.LAT ≤ maxLat)
    && decide (minLon ≤ row.LON) && decide (row.LON ≤ maxLon)

/-- Row predicate of `filter_by_period`:
`(BEGIN <= start_time) & (END >= end_time)`; `NaT` compares false. -/
def periodCovers (startTime endTime : Int) (row : StationRow) : Bool :=
  (match row.BEGIN with
    | some b => decide (b ≤ startTime)
    | none => false)
  && (match row.END with
    | some e => decide (endTime ≤ e)
    | none => false)

/-- Model of `Stations.filter_by_country(countries)` on instance `r` of store `s`:
filter the rows, reset the index, and construct a new `Stations` (a fresh
deep-copied cell). -/
def filter_by_country (s : Store) (r : Nat) (countries : List String) : Store × Nat :=
  s.alloc ((s.frames.getD r []).filter (ctryIsIn countries))

/-- Model of `Stations.filter_by_us_state(us_states)`. -/
def filter_by_us_state (s : Store) (r : Nat) (usStates : List String) : Store × Nat :=
  s.alloc ((s.frames.getD r []).filter (stIsIn usStates))

/-- Model of `Stations.filter_by_coordinates(min_lat, max_lat, min_lon, max_lon)`. -/
def filter_by_coordinates (s : Store) (r : Nat)
    (minLat maxLat minLon maxLon : ℚ) : Store × Nat :=
  s.alloc ((s.frames.getD r []).filter (coordInBox minLat maxLat minLon maxLon))

/-- Model of `Stations.filter_by_period(start_time, end_time)`. -/
def filter_by_period (s : Store) (r : Nat) (startTime endTime : Int) : Store × Nat :=
  s.alloc ((s.frames.getD r []).filter (periodCovers startTime endTime))

/-- What each metadata filter must satisfy on receiver `r` of store `s`: the
result is a freshly allocated instance distinct from the receiver, every
pre-existing dataframe — the receiver's `meta_data` included — is unchanged,
and the fresh dataframe holds exactly the rows satisfying the predicate in
their original order (their positions 0..n-1 are the reset row index). -/
def FilterSpec (s : Store) (r : Nat) (out : Store × Nat)
    (expected : List StationRow) : Prop :=
  out.2 = s.frames.length ∧ out.2 ≠ r
  ∧ (∀ i, i < s.frames.length → out.1.frames.getD i [] = s.frames.getD i [])
  ∧ out.1.frames.getD out.2 [] = expected

theorem alloc_filter_spec (s : Store) (r : Nat) (hr : r < s.frames.length)
    (pred : StationRow → Bool) :
    FilterSpec s r (s.alloc ((s.frames.getD r []).filter pred))
      ((s.frames.getD r []).filter pred) := by
  refine ⟨rfl, ?_, ?_, ?_⟩
  · show s.frames.length ≠ r
    omega
  · intro i hi
    exact List.getD_append _ _ _ _ hi
  · rw [Store.alloc]
    have h := List.getD_append_right s.frames [(s.frames.getD r []).filter pred]
      [] s.frames.length le_rfl
    rw [h, Nat.sub_self]
    rfl

/-- Claim C10: each of the four metadata filters returns a newly constructed
instance — a fresh reference distinct from the receiver — holding exactly the
rows satisfying its predicate with positions reset to 0..n-1, while the
receiver's `meta_data` (and every other existing dataframe) is unchanged; the
constructor's deep copy means the new instance shares no cell with the old
one. -/
theorem stations_filters_frame (s : Store) (r : Nat) (hr : r < s.frames.length)
    (countries usStates : List String) (minLat maxLat minLon maxLon : ℚ)
    (startTime endTime : Int) :
    FilterSpec s r (filter_by_country s r countries)
      ((s.frames.getD r []).filter (ctryIsIn countries))
    ∧ FilterSpec s r (filter_by_us_state s r usStates)
      ((s.frames.getD r []).filter (stIsIn usStates))
    ∧ FilterSpec s r (filter_by_coordinates s r minLat maxLat minLon maxLon)
      ((s.frames.getD r []).filter (coordInBox minLat maxLat minLon maxLon))
    ∧ FilterSpec s r (filter_by_period s r startTime endTime)
      ((s.frames.getD r []).filter (periodCovers startTime endTime)) :=
  ⟨alloc_filter_spec s r hr _, alloc_filter_spec s r hr _,
    alloc_filter_spec s r hr _, alloc_filter_spec s r hr _⟩

/-- A concrete store for the filter witness: one dataframe with two rows
(one Norwegian station, one US station in Colorado). -/
def c10store : Store :=
  ⟨[[⟨"010230", "99999", some "OSLO", some "NO", none, 60, 10,
      some 19730101, some 20240101⟩,
     ⟨"720538", "00164", some "ERIE", some "US", some "CO", 40, -105,
      some 19990101, none⟩]]⟩

/-- Claim C10 witness: the filter theorem applied to the concrete store at
reference 0. -/
theorem stations_filters_frame_witness :
    FilterSpec c10store 0 (filter_by_country c10store 0 ["US"])
      ((c10store.frames.getD 0 []).filter (ctryIsIn ["US"]))
    ∧ FilterSpec c10store 0 (filter_by_us_state c10store 0 ["CO"])
      ((c10store.frames.getD 0 []).filter (stIsIn ["CO"]))
    ∧ FilterSpec c10store 0 (filter_by_coordinates c10store 0 30 50 (-110) (-100))
      ((c10store.frames.getD 0 []).filter (coordInBox 30 50 (-110) (-100)))
    ∧ FilterSpec c10store 0 (filter_by_period c10store 0 20000101 20200101)
      ((c10store.frames.getD 0 []).filter (periodCovers 20000101 20200101)) :=
  stations_filters_frame c10store 0 (by decide) ["US"] ["CO"] 30 50 (-110) (-100)
    20000101 20200101

end IsdLite
